import Mathlib

/-!
Verification of the pprofdump utility (main.go) against its natural-language
specification.  The Go source is shallowly embedded: pure helpers become Lean
functions, the channel/goroutine coordinator becomes a step relation on an
explicit state, and external collaborators (HTTP transport, os.Create, the
gzip+tar codec, url.Parse) are modelled as oracles or as an injective
in-memory encoding, exactly as the spec designates them external.
-/

namespace Pprofdump

/-! ## Profile name parsing (ParseProfileName, main.go lines 298-305) -/

/-- Model of Go strings.Split with a single-character separator.
strings.Split("", sep) = [""], and every occurrence of the separator starts a
new field. -/
def splitOnChar (sep : Char) : List Char → List (List Char)
  | [] => [[]]
  | c :: rest =>
    if c = sep then [] :: splitOnChar sep rest
    else
      match splitOnChar sep rest with
      | [] => [[c]]
      | h :: t => (c :: h) :: t

/-- ParseProfileName from main.go: a := strings.Split(name, "?");
if len(a) == 1 return a[0], ""; otherwise return a[0], a[1]. -/
def ParseProfileName (name : String) : String × String :=
  match splitOnChar '?' name.data with
  | [] => ("", "")
  | [a] => (⟨a⟩, "")
  | a :: b :: _ => (⟨a⟩, ⟨b⟩)

theorem splitOnChar_ne_nil (sep : Char) (l : List Char) : splitOnChar sep l ≠ [] := by
  cases l with
  | nil => simp [splitOnChar]
  | cons c rest =>
    simp only [splitOnChar]
    split
    · simp
    · cases h : splitOnChar sep rest <;> simp

theorem splitOnChar_no_sep (sep : Char) (a : List Char) (ha : sep ∉ a) :
    splitOnChar sep a = [a] := by
  induction a with
  | nil => rfl
  | cons c rest ih =>
    simp only [List.mem_cons, not_or] at ha
    simp only [splitOnChar]
    rw [if_neg (fun h => ha.1 h.symm)]
    rw [ih ha.2]

theorem splitOnChar_append_no_sep (sep : Char) (a l : List Char) (ha : sep ∉ a) :
    splitOnChar sep (a ++ l) =
      match splitOnChar sep l with
      | [] => [a]
      | h :: t => (a ++ h) :: t := by
  induction a with
  | nil =>
    cases h : splitOnChar sep l with
    | nil => exact absurd h (splitOnChar_ne_nil sep l)
    | cons x t => simp [h]
  | cons c rest ih =>
    simp only [List.mem_cons, not_or] at ha
    have ih' := ih ha.2
    simp only [List.cons_append, splitOnChar]
    rw [if_neg (fun h => ha.1 h.symm)]
    simp only [List.append_eq] at ih' ⊢
    rw [ih']
    cases h : splitOnChar sep l with
    | nil => exact absurd h (splitOnChar_ne_nil sep l)
    | cons x t => simp

theorem splitOnChar_sep_cons (sep : Char) (l : List Char) :
    splitOnChar sep (sep :: l) = [] :: splitOnChar sep l := by
  simp [splitOnChar]

/-! ## Filename sanitization (writeTarFile, main.go line 266)

The Go code applies regexp `[^a-zA-Z0-9_-]+` replaced by "-": every maximal
nonempty run of characters outside [A-Za-z0-9_-] collapses to a single dash.
`sanitizeAux` carries a flag recording whether the previous character was part
of a disallowed run (in which case no further dash is emitted for it). -/

/-- The character class [a-zA-Z0-9_-] admitted by the regex in main.go. -/
def allowedChar (c : Char) : Bool :=
  (('a' ≤ c && c ≤ 'z') || ('A' ≤ c && c ≤ 'Z') || ('0' ≤ c && c ≤ '9')
    || c = '_' || c = '-')

/-- Leftmost-longest replacement of runs of disallowed characters by "-".
The boolean argument is true while inside a disallowed run whose dash was
already emitted. -/
def sanitizeAux : List Char → Bool → List Char
  | [], _ => []
  | c :: rest, inRun =>
    if allowedChar c then c :: sanitizeAux rest false
    else if inRun then sanitizeAux rest true
    else '-' :: sanitizeAux rest true

/-- regexp.MustCompile(`[^a-zA-Z0-9_-]+`).ReplaceAllString(name, "-") -/
def sanitizeFilename (name : String) : String :=
  ⟨sanitizeAux name.data false⟩

theorem sanitizeAux_all_allowed (l : List Char) (b : Bool) :
    ∀ c ∈ sanitizeAux l b, allowedChar c = true := by
  induction l generalizing b with
  | nil => intro c hc; simp [sanitizeAux] at hc
  | cons x rest ih =>
    intro c hc
    simp only [sanitizeAux] at hc
    by_cases hx : allowedChar x
    · rw [if_pos hx] at hc
      rcases List.mem_cons.mp hc with h | h
      · exact h ▸ hx
      · exact ih false c h
    · rw [if_neg hx] at hc
      cases b with
      | true => exact ih true c (by simpa using hc)
      | false =>
        rcases List.mem_cons.mp (by simpa using hc) with h | h
        · subst h; rfl
        · exact ih true c h

theorem sanitizeAux_of_all_allowed (l : List Char)
    (h : ∀ c ∈ l, allowedChar c = true) : sanitizeAux l false = l := by
  induction l with
  | nil => rfl
  | cons x rest ih =>
    simp only [sanitizeAux, if_pos (h x (List.mem_cons_self x rest))]
    rw [ih (fun c hc => h c (List.mem_cons_of_mem x hc))]

theorem sanitizeFilename_idempotent (s : String) :
    sanitizeFilename (sanitizeFilename s) = sanitizeFilename s := by
  unfold sanitizeFilename
  congr 1
  exact sanitizeAux_of_all_allowed _ (sanitizeAux_all_allowed s.data false)

theorem sanitizeAux_allowed_cons (c : Char) (l : List Char) (b : Bool)
    (hc : allowedChar c = true) :
    sanitizeAux (c :: l) b = c :: sanitizeAux l false := by
  simp [sanitizeAux, hc]

theorem sanitizeAux_inRun_skip (r s : List Char)
    (hall : ∀ c ∈ r, allowedChar c = false) :
    sanitizeAux (r ++ s) true = sanitizeAux s true := by
  induction r with
  | nil => rfl
  | cons z zt ih =>
    have hz : allowedChar z = false := hall z (List.mem_cons_self z zt)
    simp only [List.cons_append, sanitizeAux]
    rw [if_neg (by rw [hz]; exact Bool.false_ne_true), if_pos trivial]
    exact ih (fun c hc => hall c (List.mem_cons_of_mem z hc))

theorem sanitizeAux_run_collapse (r s : List Char) (hr : r ≠ [])
    (hall : ∀ c ∈ r, allowedChar c = false) :
    sanitizeAux (r ++ s) false = '-' :: sanitizeAux s true := by
  cases r with
  | nil => exact absurd rfl hr
  | cons x rest =>
    have hx : allowedChar x = false := hall x (List.mem_cons_self x rest)
    simp only [List.cons_append, sanitizeAux]
    rw [if_neg (by rw [hx]; exact Bool.false_ne_true)]
    rw [if_neg Bool.false_ne_true]
    exact congrArg (fun l => '-' :: l)
      (sanitizeAux_inRun_skip rest s (fun c hc => hall c (List.mem_cons_of_mem x hc)))

/-! ## Streams and the archive writer (writeTarFile, main.go lines 256-289)

A response body is modelled as a ReadCloser whose read either yields the whole
byte list (ioutil.ReadAll succeeding) or fails with an error.  The outcome of
writeTarFile records, besides the produced tar entry, exactly which stream
operations the Go function performs: whether the stream was read to
completion, and how many times Close was called on it.  The Go source of
writeTarFile calls ioutil.ReadAll(r) and never calls r.Close(), and Run does
not close the stream either, so the close count in the model is 0. -/

/-- An open HTTP response body: its byte contents, and the error ReadAll would
return (none means reading succeeds). Bytes are modelled as Nat. -/
structure ReadCloser where
  data : List Nat
  readErr : Option String
  deriving Repr, DecidableEq

/-- The struct profileReadCloser of main.go: an embedded ReadCloser plus the
original profile specifier name. -/
structure profileReadCloser where
  name : String
  stream : ReadCloser
  deriving Repr, DecidableEq

/-- One entry of the tar archive, as written by tw.WriteHeader/tw.Write. -/
structure TarEntry where
  name : String
  mode : Nat
  size : Nat
  body : List Nat
  deriving Repr, DecidableEq

/-- Result of writeTarFile together with the stream operations performed. -/
structure WriteTarOutcome where
  entry : Except String TarEntry
  streamRead : Bool
  streamCloses : Nat
  deriving Repr

/-- writeTarFile from main.go: buffer the whole stream with ReadAll (on error,
return the error), sanitize the name, write a header with mode 0600 and size
equal to the buffered length, then write the buffered bytes.  No Close call
appears anywhere in the function, hence streamCloses = 0 on every path. -/
def writeTarFile (name : String) (r : ReadCloser) : WriteTarOutcome :=
  match r.readErr with
  | some e => { entry := Except.error e, streamRead := false, streamCloses := 0 }
  | none =>
    { entry := Except.ok
        { name := sanitizeFilename name
          mode := 0o600
          size := r.data.length
          body := r.data }
      streamRead := true
      streamCloses := 0 }

/-! ## The profile fetcher (fetchProfile, main.go lines 231-254)

The HTTP transport is an external collaborator; its answer for a given
request is an oracle value.  fetchProfile parses the specifier, performs the
GET, and on a non-200 status closes the body unread and emits nothing; on
status 200 it emits one profileReadCloser pairing the original specifier name
with the open body. -/

/-- The oracle answer of the HTTP transport for one GET. -/
inductive HTTPAnswer where
  | transportError (msg : String)
  | response (status : Nat) (body : ReadCloser)
  deriving Repr, DecidableEq

/-- What one call of fetchProfile does: log lines produced, the result sent on
the channel (none when the fetch failed), and whether the response body was
closed immediately without being read. -/
structure FetchOutcome where
  logs : List String
  emitted : Option profileReadCloser
  bodyClosedUnread : Bool
  deriving Repr, DecidableEq

/-- fetchProfile from main.go.  segment/query come from ParseProfileName; the
URL construction and http.Get are the external transport, whose answer is the
oracle argument.  resp.StatusCode != 200 logs the segment and status and
closes resp.Body without reading; a transport error logs the segment and the
error; otherwise the original full name and the open body are emitted. -/
def fetchProfile (name : String) (answer : HTTPAnswer) : FetchOutcome :=
  let segment := (ParseProfileName name).1
  match answer with
  | HTTPAnswer.transportError e =>
    { logs := ["[" ++ segment ++ "] error: " ++ e]
      emitted := none
      bodyClosedUnread := false }
  | HTTPAnswer.response status body =>
    if status ≠ 200 then
      { logs := ["[" ++ segment ++ "] error: status=" ++ toString status]
        emitted := none
        bodyClosedUnread := true }
    else
      { logs := []
        emitted := some { name := name, stream := body }
        bodyClosedUnread := false }

/-- Modelled from the spec: the class of HTTP success statuses (2xx).  Used
only to compare the spec's phrase "HTTP success status" against the code's
actual check, which is equality with 200. -/
def specHTTPSuccess (status : Nat) : Prop := 200 ≤ status ∧ status < 300

instance (status : Nat) : Decidable (specHTTPSuccess status) := by
  unfold specHTTPSuccess; infer_instance

/-! ## The gzip+tar codec as an injective in-memory encoding

The spec treats the compression/archival codec as an external collaborator:
"accepts a sequence of (name, size, bytes) entries written in order and
produces one self-describing compressed container; both layers require an
explicit finalize step".  It is modelled as a concrete injective encoding
with a leading magic header and a trailing finalize footer, together with a
decoder establishing the round-trip. -/

def encodeString (s : String) : List Nat :=
  s.data.length :: s.data.map Char.toNat

def encodeEntry (e : TarEntry) : List Nat :=
  encodeString e.name ++ [e.mode, e.size, e.body.length] ++ e.body

def encodeEntryList : List TarEntry → List Nat
  | [] => []
  | e :: rest => encodeEntry e ++ encodeEntryList rest

/-- The finalized archive: gzip magic, entry count, the entries in order, and
the end-of-archive footer written by the finalize steps. -/
def archiveEncode (entries : List TarEntry) : List Nat :=
  31 :: 139 :: entries.length :: encodeEntryList entries ++ [0, 0]

/-- Take exactly n elements, failing when fewer are available. -/
def takeExact (n : Nat) (l : List Nat) : Option (List Nat × List Nat) :=
  match n, l with
  | 0, l => some ([], l)
  | _ + 1, [] => none
  | n + 1, x :: rest =>
    match takeExact n rest with
    | none => none
    | some (a, b) => some (x :: a, b)

def decodeEntry (l : List Nat) : Option (TarEntry × List Nat) :=
  match l with
  | [] => none
  | nameLen :: rest =>
    match takeExact nameLen rest with
    | none => none
    | some (nameCodes, rest) =>
      match rest with
      | mode :: size :: bodyLen :: rest =>
        match takeExact bodyLen rest with
        | none => none
        | some (body, rest) =>
          some ({ name := ⟨nameCodes.map Char.ofNat⟩, mode, size, body }, rest)
      | _ => none

def decodeEntryList : Nat → List Nat → Option (List TarEntry × List Nat)
  | 0, l => some ([], l)
  | n + 1, l =>
    match decodeEntry l with
    | none => none
    | some (e, rest) =>
      match decodeEntryList n rest with
      | none => none
      | some (es, rest) => some (e :: es, rest)

def archiveDecode (l : List Nat) : Option (List TarEntry) :=
  match l with
  | m1 :: m2 :: count :: rest =>
    if m1 = 31 ∧ m2 = 139 then
      match decodeEntryList count rest with
      | none => none
      | some (es, [0, 0]) => some es
      | some _ => none
    else none
  | _ => none

theorem takeExact_append (a b : List Nat) : takeExact a.length (a ++ b) = some (a, b) := by
  induction a with
  | nil => rfl
  | cons x rest ih => simp [takeExact, ih]

theorem takeExact_of_length_eq (n : Nat) (a b : List Nat) (h : n = a.length) :
    takeExact n (a ++ b) = some (a, b) := h ▸ takeExact_append a b

theorem decodeEntry_encodeEntry (e : TarEntry) (rest : List Nat) :
    decodeEntry (encodeEntry e ++ rest) = some (e, rest) := by
  obtain ⟨⟨nameData⟩, mode, size, body⟩ := e
  simp only [encodeEntry, encodeString, List.cons_append, List.append_assoc, decodeEntry]
  rw [takeExact_of_length_eq _ _ _ (by simp)]
  simp only [List.nil_append]
  rw [takeExact_of_length_eq _ _ _ rfl]
  simp only [List.map_map]
  rw [show Char.ofNat ∘ Char.toNat = id from funext Char.ofNat_toNat, List.map_id]

theorem decodeEntryList_encodeEntryList (entries : List TarEntry) (rest : List Nat) :
    decodeEntryList entries.length (encodeEntryList entries ++ rest) = some (entries, rest) := by
  induction entries generalizing rest with
  | nil => rfl
  | cons e es ih =>
    simp only [List.length_cons, encodeEntryList, List.append_assoc, decodeEntryList]
    rw [decodeEntry_encodeEntry]
    simp only [ih]

/-- Round-trip of the modelled codec: a finalized archive decodes back to the
entry list that was written. -/
theorem archiveDecode_archiveEncode (entries : List TarEntry) :
    archiveDecode (archiveEncode entries) = some entries := by
  unfold archiveEncode archiveDecode
  simp only [List.cons_append]
  rw [if_pos (by trivial)]
  rw [decodeEntryList_encodeEntryList]

/-! ## The run orchestrator (Run, main.go lines 141-206)

Run is embedded as a function from its configuration and the oracle answers
of its external collaborators to an explicit record of observable outcomes.
The order of its steps mirrors the source:
  1. fetchProfiles is invoked first (line 147): the fetch goroutines are
     dispatched, each immediately performing its HTTP GET; nothing gates them
     on the output sink.
  2. only then is the output writer determined (lines 150-160): stdout when
     OutputPath is empty, else os.Create, whose failure aborts Run with that
     error.
  3. the gzip and tar layers wrap the sink; the result channel is drained
     through writeTarFile, counting successes.
  4. the tar then gzip layers are finalized and the sink closed; writing to
     an in-memory sink cannot fail, so the finalize steps succeed here.
  5. when successN == 0 the named output file (if any) is removed and the
     error "no profiles written" is returned; otherwise Run returns nil. -/

/-- Observable events of one Run, in program order. -/
inductive RunEvent where
  | fetchesLaunched (names : List String)
  | outputOpened (path : String)
  | archiveFinalized
  | outputFileRemoved (path : String)
  deriving Repr, DecidableEq

/-- Observable outcome of Run: the event trace, the bytes written to stdout,
the final content of the named output file (none = no file on disk), the
count of successfully written profiles, and the returned error. -/
structure RunResult where
  events : List RunEvent
  stdout : List Nat
  fileOnDisk : Option (List Nat)
  successN : Nat
  err : Option String
  deriving Repr

/-- One iteration of the archive-writer loop: writeTarFile on one result;
on success append the entry and bump successN, on failure only log. -/
def runArchiveStep (acc : List TarEntry × Nat) (r : profileReadCloser) :
    List TarEntry × Nat :=
  match (writeTarFile r.name r.stream).entry with
  | Except.ok e => (acc.1 ++ [e], acc.2 + 1)
  | Except.error _ => acc

/-- The archive-writer loop of Run (lines 168-176): drain the results in
arrival order, keep the entries writeTarFile succeeds on, count successes. -/
def runArchive (results : List profileReadCloser) : List TarEntry × Nat :=
  results.foldl runArchiveStep ([], 0)

/-- Run from main.go.  createErr is the oracle answer of os.Create for the
named output path (ignored when OutputPath is empty; none = creation
succeeds); results is the arrival-ordered list of successful fetches read
from the result channel. -/
def Run (outputPath : String) (names : List String) (createErr : Option String)
    (results : List profileReadCloser) : RunResult :=
  let launched := [RunEvent.fetchesLaunched names]
  if outputPath = "" then
    runAfterOpen outputPath launched results
  else
    match createErr with
    | some e =>
      { events := launched, stdout := [], fileOnDisk := none, successN := 0,
        err := some e }
    | none => runAfterOpen outputPath launched results
where
  /-- Lines 162-205: archive writing, finalization and the zero-success check,
  performed once the sink is open. -/
  runAfterOpen (outputPath : String) (launched : List RunEvent)
      (results : List profileReadCloser) : RunResult :=
    let stage := runArchive results
    let bytes := archiveEncode stage.1
    if stage.2 = 0 then
      { events := launched ++ [RunEvent.outputOpened outputPath, RunEvent.archiveFinalized]
          ++ (if outputPath = "" then [] else [RunEvent.outputFileRemoved outputPath])
        stdout := if outputPath = "" then bytes else []
        fileOnDisk := none
        successN := 0
        err := some "no profiles written" }
    else
      { events := launched ++ [RunEvent.outputOpened outputPath, RunEvent.archiveFinalized]
        stdout := if outputPath = "" then bytes else []
        fileOnDisk := if outputPath = "" then none else some bytes
        successN := stage.2
        err := none }

/-! ## The fetch coordinator (fetchProfiles, main.go lines 208-229)

fetchProfiles launches one goroutine per requested profile, each running
fetchProfile (which sends its result, if any, on the shared channel), adds
every goroutine to a WaitGroup, and a final goroutine calls wg.Wait() and
then close(results).  This is embedded as a transition system: a task is the
Option result its fetch would send (none = failed fetch, nothing sent); a
step either completes one still-pending task, appending its emission to the
channel, or — only once no task is pending, i.e. after wg.Wait() — closes
the channel. -/

/-- Coordinator state: the tasks not yet completed, the results emitted on
the shared channel so far (in emission order), and whether the channel has
been closed. -/
structure CoordState where
  pending : List (Option profileReadCloser)
  emitted : List profileReadCloser
  closed : Bool
  deriving Repr

/-- Initial state: one launched task per requested profile. -/
def initCoord (tasks : List (Option profileReadCloser)) : CoordState :=
  { pending := tasks, emitted := [], closed := false }

/-- The tasks launched for a list of profile specifiers, given the transport
oracle: each task carries exactly what its fetchProfile call would emit. -/
def coordTasks (specs : List (String × HTTPAnswer)) : List (Option profileReadCloser) :=
  specs.map (fun p => (fetchProfile p.1 p.2).emitted)

/-- One scheduler step of the coordinator. -/
inductive CoordStep : CoordState → CoordState → Prop
  | complete (l1 l2 : List (Option profileReadCloser)) (t : Option profileReadCloser)
      (e : List profileReadCloser) (c : Bool) :
      CoordStep
        { pending := l1 ++ t :: l2, emitted := e, closed := c }
        { pending := l1 ++ l2, emitted := e ++ t.toList, closed := c }
  | close (e : List profileReadCloser) :
      CoordStep
        { pending := [], emitted := e, closed := false }
        { pending := [], emitted := e, closed := true }

/-- Reachability from the initial state by scheduler steps. -/
def CoordReachable (tasks : List (Option profileReadCloser)) (s : CoordState) : Prop :=
  Relation.ReflTransGen CoordStep (initCoord tasks) s

theorem coord_invariant (tasks : List (Option profileReadCloser)) (s : CoordState)
    (h : CoordReachable tasks s) :
    (s.emitted ++ s.pending.filterMap id).Perm (tasks.filterMap id)
      ∧ (s.closed = true → s.pending = []) := by
  induction h with
  | refl => exact ⟨by simp [initCoord], by simp [initCoord]⟩
  | tail hreach hstep ih =>
    rename_i b c
    cases hstep with
    | complete l1 l2 t e cl =>
      refine ⟨?_, ?_⟩
      · refine List.Perm.trans ?_ ih.1
        simp only [List.filterMap_append, List.filterMap_cons]
        cases t with
        | none =>
          simp
        | some r =>
          simp only [Option.toList, id, List.append_assoc]
          exact List.Perm.append_left e (List.perm_append_comm_assoc [r] _ _)
      · intro hc
        have := ih.2 hc
        exact absurd this (by simp)
    | close e =>
      exact ⟨ih.1, fun _ => rfl⟩

/-! ## Flag parsing and process exit (ParseFlags and main, main.go lines 33-139)

The Go flag package (flag.FlagSet with ContinueOnError) is embedded for the
three flags the program registers: -o (string), -profiles (string), -v
(bool).  -h and -help give the distinguished ErrHelp outcome.  Parsing stops at
the first non-flag argument or after "--"; remaining arguments are the
positional arguments. -/

structure FlagConfig where
  o : String
  profiles : String
  v : Bool
  deriving Repr, DecidableEq

/-- Default flag values registered in ParseFlags (main.go lines 114-116). -/
def DefaultProfileNames : List String :=
  ["profile", "heap", "block", "goroutine?debug=2", "threadcreate"]

def defaultFlagConfig : FlagConfig :=
  { o := "", profiles := String.intercalate "," DefaultProfileNames, v := false }

inductive FlagParseError where
  | help
  | badSyntax (arg : String)
  | notDefined (name : String)
  | needsArg (name : String)
  | badBoolValue (name value : String)
  deriving Repr, DecidableEq

/-- strconv.ParseBool, used by the flag package to set a bool flag. -/
def goParseBool (s : String) : Option Bool :=
  if s = "1" || s = "t" || s = "T" || s = "TRUE" || s = "true" || s = "True" then some true
  else if s = "0" || s = "f" || s = "F" || s = "FALSE" || s = "false" || s = "False" then
    some false
  else none

/-- Split a flag token body at the first '=': (name, hasValue, value). -/
def splitFlagValue (nameStr : List Char) : List Char × Bool × List Char :=
  match splitOnChar '=' nameStr with
  | [] => (nameStr, false, [])
  | [_] => (nameStr, false, [])
  | n :: v :: restParts =>
    (n, true, String.data (String.intercalate "=" ((v :: restParts).map (fun l => ⟨l⟩))))

/-- flag.FlagSet.Parse over the registered flags: repeatedly consume one flag
token (parseOne), stopping at the first non-flag argument or at "--".
Returns the final flag values and the positional arguments. -/
def parseArgs (cfg : FlagConfig) : List String →
    Except FlagParseError (FlagConfig × List String)
  | [] => Except.ok (cfg, [])
  | s :: rest =>
    if s.length < 2 || s.data.head? ≠ some '-' then Except.ok (cfg, s :: rest)
    else
      let twoMinus := s.data.get? 1 = some '-'
      if twoMinus && s.length = 2 then Except.ok (cfg, rest)
      else
        let nameStr := if twoMinus then s.data.drop 2 else s.data.drop 1
        if nameStr = [] || nameStr.head? = some '-' || nameStr.head? = some '=' then
          Except.error (FlagParseError.badSyntax s)
        else
          let parts := splitFlagValue nameStr
          let name : String := ⟨parts.1⟩
          let hasValue := parts.2.1
          let value : String := ⟨parts.2.2⟩
          if name = "v" then
            if hasValue then
              match goParseBool value with
              | some b => parseArgs { cfg with v := b } rest
              | none => Except.error (FlagParseError.badBoolValue name value)
            else parseArgs { cfg with v := true } rest
          else if name = "o" then
            if hasValue then parseArgs { cfg with o := value } rest
            else
              match rest with
              | v2 :: rest2 => parseArgs { cfg with o := v2 } rest2
              | [] => Except.error (FlagParseError.needsArg name)
          else if name = "profiles" then
            if hasValue then parseArgs { cfg with profiles := value } rest
            else
              match rest with
              | v2 :: rest2 => parseArgs { cfg with profiles := v2 } rest2
              | [] => Except.error (FlagParseError.needsArg name)
          else if name = "help" || name = "h" then Except.error FlagParseError.help
          else Except.error (FlagParseError.notDefined name)

/-- The value ParseFlags leaves in m, when it returns nil. -/
structure MainSettings where
  outputPath : String
  profileNames : List String
  verbose : Bool
  urlArg : String
  deriving Repr, DecidableEq

inductive ParseFlagsResult where
  | help
  | flagError (e : FlagParseError)
  | usageError (msg : String)
  | ok (settings : MainSettings)
  deriving Repr, DecidableEq

/-- ParseFlags from main.go (lines 109-139).  urlOk is the oracle for
url.Parse on the positional argument (the URL parser is external library
code); names are split from the -profiles value on ','. -/
def ParseFlags (urlOk : String → Bool) (args : List String) : ParseFlagsResult :=
  match parseArgs defaultFlagConfig args with
  | Except.error FlagParseError.help => ParseFlagsResult.help
  | Except.error e => ParseFlagsResult.flagError e
  | Except.ok (cfg, positional) =>
    let names := (splitOnChar ',' cfg.profiles.data).map (fun l => (⟨l⟩ : String))
    match positional with
    | [] => ParseFlagsResult.usageError "URL required"
    | [u] =>
      if urlOk u then
        ParseFlagsResult.ok
          { outputPath := cfg.o, profileNames := names, verbose := cfg.v, urlArg := u }
      else ParseFlagsResult.usageError "invalid URL"
    | _ :: _ :: _ => ParseFlagsResult.usageError "too many arguments"

/-- What the process does as a function of the flag-parse outcome and
whether Run fails: the exit code, whether Run was invoked at all (no Run
means no fetch and hence no network activity), and whether the usage text
was printed to the error stream. -/
structure MainOutcome where
  exitCode : Nat
  ranRun : Bool
  printedUsage : Bool
  deriving Repr, DecidableEq

/-- main from main.go (lines 33-50): ErrHelp prints the usage to stderr and
exits 2; any other ParseFlags error prints the error and exits 1; a Run
error prints it and exits 1; otherwise the process ends with code 0. -/
def mainProcess (urlOk : String → Bool) (args : List String) (runFails : Bool) :
    MainOutcome :=
  match ParseFlags urlOk args with
  | ParseFlagsResult.help => { exitCode := 2, ranRun := false, printedUsage := true }
  | ParseFlagsResult.flagError _ => { exitCode := 1, ranRun := false, printedUsage := false }
  | ParseFlagsResult.usageError _ => { exitCode := 1, ranRun := false, printedUsage := false }
  | ParseFlagsResult.ok _ =>
    if runFails then { exitCode := 1, ranRun := true, printedUsage := false }
    else { exitCode := 0, ranRun := true, printedUsage := false }

/-! ## Claim theorems -/

/-- C1, counterexample: the claim says the query is everything after the
first question mark verbatim, so "goroutine?debug=2?x" should give query
"debug=2?x"; the code (strings.Split plus a[1]) gives "debug=2". -/
theorem parseProfileName_counterexample :
    ParseProfileName "goroutine?debug=2?x" = ("goroutine", "debug=2")
    ∧ (("goroutine", "debug=2") : String × String) ≠ ("goroutine", "debug=2?x") := by
  exact ⟨by decide, by decide⟩

/-- C1 (amended): ParseProfileName returns as segment the substring before
the first question mark (the whole string, with empty query, when none is
present); when a question mark is present the query is the substring between
the first question mark and the second one (or the end of the string), and
anything after a second question mark is dropped. -/
theorem parseProfileName_spec (a b c : List Char) (ha : '?' ∉ a) (hb : '?' ∉ b) :
    ParseProfileName ⟨a⟩ = (⟨a⟩, "")
    ∧ ParseProfileName ⟨a ++ '?' :: b⟩ = (⟨a⟩, ⟨b⟩)
    ∧ ParseProfileName ⟨a ++ '?' :: b ++ '?' :: c⟩ = (⟨a⟩, ⟨b⟩) := by
  refine ⟨?_, ?_, ?_⟩
  · unfold ParseProfileName
    rw [show (String.mk a).data = a from rfl, splitOnChar_no_sep _ _ ha]
  · unfold ParseProfileName
    rw [show (String.mk (a ++ '?' :: b)).data = a ++ '?' :: b from rfl]
    rw [splitOnChar_append_no_sep _ _ _ ha, splitOnChar_sep_cons,
      splitOnChar_no_sep _ _ hb]
    simp
  · unfold ParseProfileName
    rw [show (String.mk (a ++ '?' :: b ++ '?' :: c)).data = a ++ '?' :: (b ++ '?' :: c)
          from by simp]
    rw [splitOnChar_append_no_sep _ _ _ ha, splitOnChar_sep_cons,
      splitOnChar_append_no_sep _ _ _ hb, splitOnChar_sep_cons]
    cases h : splitOnChar '?' c with
    | nil => exact absurd h (splitOnChar_ne_nil '?' c)
    | cons x t => simp

theorem parseProfileName_spec_witness :
    ParseProfileName ⟨"goroutine".data ++ '?' :: "debug=2".data ++ '?' :: "x".data⟩
      = ("goroutine", "debug=2") :=
  (parseProfileName_spec "goroutine".data "debug=2".data "x".data
    (by decide) (by decide)).2.2

/-- C2 (code bug): the spec requires each handed-off byte stream to be read
to completion and closed exactly once by the archive writer, but writeTarFile
reads the stream fully (ioutil.ReadAll) and never calls Close on it, on any
path, and Run does not close it either; the close count of the embedded
writeTarFile is 0, not 1, also at the concrete failing input. -/
theorem writeTarFile_never_closes_stream :
    (writeTarFile "heap" ⟨[1, 2, 3], none⟩).streamCloses = 0
    ∧ (writeTarFile "heap" ⟨[1, 2, 3], none⟩).streamRead = true
    ∧ (∀ (name : String) (r : ReadCloser), (writeTarFile name r).streamCloses = 0) := by
  refine ⟨rfl, rfl, ?_⟩
  intro name r
  unfold writeTarFile
  cases r.readErr <;> rfl

/-- C6: every character of a sanitized filename lies in [A-Za-z0-9_-], each
maximal run of disallowed characters collapses to exactly one dash (one dash
per run, regardless of the run's length, and allowed characters pass through
unchanged), sanitization is idempotent, and "goroutine?debug=2" becomes
"goroutine-debug-2". -/
theorem sanitizeFilename_spec :
    (∀ s : String, ∀ c ∈ (sanitizeFilename s).data, allowedChar c = true)
    ∧ (∀ s : String, sanitizeFilename (sanitizeFilename s) = sanitizeFilename s)
    ∧ (∀ r s : List Char, r ≠ [] → (∀ c ∈ r, allowedChar c = false) →
        sanitizeAux (r ++ s) false = '-' :: sanitizeAux s true)
    ∧ (∀ (c : Char) (s : List Char), allowedChar c = true →
        sanitizeAux (c :: s) false = c :: sanitizeAux s false)
    ∧ sanitizeFilename "goroutine?debug=2" = "goroutine-debug-2" := by
  refine ⟨?_, sanitizeFilename_idempotent, sanitizeAux_run_collapse, ?_, by decide⟩
  · intro s c hc
    exact sanitizeAux_all_allowed s.data false c hc
  · intro c s hc
    exact sanitizeAux_allowed_cons c s false hc

theorem sanitizeFilename_spec_witness :
    sanitizeAux (['?', '='] ++ ['x']) false = '-' :: sanitizeAux ['x'] true :=
  sanitizeFilename_spec.2.2.1 ['?', '='] ['x'] (by decide) (by decide)

/-- C7, counterexample: the claim promises a result for every HTTP success
status, but 204 is a success-class (2xx) status and the code, which compares
the status with 200 only, emits nothing for it (it logs the segment and
closes the body unread instead). -/
theorem fetchProfile_success_status_counterexample :
    specHTTPSuccess 204
    ∧ (fetchProfile "heap" (HTTPAnswer.response 204 ⟨[1], none⟩)).emitted = none
    ∧ (fetchProfile "heap" (HTTPAnswer.response 204 ⟨[1], none⟩)).bodyClosedUnread
        = true := by
  refine ⟨by decide, by decide, by decide⟩

/-- C7 (amended): on a transport error the fetcher logs and emits no result;
on any HTTP status other than exactly 200 it logs the segment name and the
status code, closes the response body without reading it, and emits no
result; on status exactly 200 (not the whole 2xx success class) it emits one
FetchResult pairing the original full specifier name with the open body. -/
theorem fetchProfile_spec (name : String) (answer : HTTPAnswer) :
    (∀ msg, answer = HTTPAnswer.transportError msg →
      (fetchProfile name answer).emitted = none
      ∧ (fetchProfile name answer).logs =
          ["[" ++ (ParseProfileName name).1 ++ "] error: " ++ msg])
    ∧ (∀ status body, answer = HTTPAnswer.response status body → status ≠ 200 →
      (fetchProfile name answer).emitted = none
      ∧ (fetchProfile name answer).bodyClosedUnread = true
      ∧ (fetchProfile name answer).logs =
          ["[" ++ (ParseProfileName name).1 ++ "] error: status=" ++ toString status])
    ∧ (∀ body, answer = HTTPAnswer.response 200 body →
      (fetchProfile name answer).emitted = some { name := name, stream := body }
      ∧ (fetchProfile name answer).bodyClosedUnread = false) := by
  refine ⟨?_, ?_, ?_⟩
  · intro msg h
    subst h
    exact ⟨rfl, rfl⟩
  · intro status body h hs
    subst h
    simp only [fetchProfile]
    rw [if_pos hs]
    exact ⟨rfl, rfl, rfl⟩
  · intro body h
    subst h
    simp only [fetchProfile]
    rw [if_neg (fun hh => hh rfl)]
    exact ⟨rfl, rfl⟩

theorem fetchProfile_spec_witness :
    (fetchProfile "goroutine?debug=2" (HTTPAnswer.response 500 ⟨[7], none⟩)).emitted = none
    ∧ (fetchProfile "goroutine?debug=2" (HTTPAnswer.response 500 ⟨[7], none⟩)).bodyClosedUnread
        = true
    ∧ (fetchProfile "goroutine?debug=2" (HTTPAnswer.response 500 ⟨[7], none⟩)).logs =
        ["[" ++ (ParseProfileName "goroutine?debug=2").1 ++ "] error: status=" ++ toString 500] :=
  (fetchProfile_spec "goroutine?debug=2" (HTTPAnswer.response 500 ⟨[7], none⟩)).2.1
    500 ⟨[7], none⟩ rfl (by decide)

/-- C8: for every successfully read profile body, writeTarFile produces one
entry whose header size equals exactly the buffered body length, whose mode
is owner-read-write only (0600), and whose body is the buffered bytes; the
entry round-trips through the archive codec, also when the body is empty. -/
theorem writeTarFile_entry_spec (name : String) (r : ReadCloser)
    (h : r.readErr = none) :
    ∃ e : TarEntry,
      (writeTarFile name r).entry = Except.ok e
      ∧ e.size = e.body.length
      ∧ e.body = r.data
      ∧ e.mode = 0o600
      ∧ e.name = sanitizeFilename name
      ∧ archiveDecode (archiveEncode [e]) = some [e] := by
  refine ⟨{ name := sanitizeFilename name, mode := 0o600, size := r.data.length,
            body := r.data }, ?_, rfl, rfl, rfl, rfl, archiveDecode_archiveEncode _⟩
  unfold writeTarFile
  rw [h]

theorem writeTarFile_entry_spec_witness :
    ∃ e : TarEntry,
      (writeTarFile "heap" ⟨[], none⟩).entry = Except.ok e
      ∧ e.size = e.body.length
      ∧ e.body = []
      ∧ e.mode = 0o600
      ∧ e.name = sanitizeFilename "heap"
      ∧ archiveDecode (archiveEncode [e]) = some [e] :=
  writeTarFile_entry_spec "heap" ⟨[], none⟩ rfl

/-! ### Helper lemmas about Run -/

theorem runArchiveStep_length (acc : List TarEntry × Nat) (r : profileReadCloser)
    (h : acc.1.length = acc.2) :
    (runArchiveStep acc r).1.length = (runArchiveStep acc r).2 := by
  unfold runArchiveStep
  cases (writeTarFile r.name r.stream).entry <;> simp [h]

theorem runArchive_foldl_length (results : List profileReadCloser) :
    ∀ acc : List TarEntry × Nat, acc.1.length = acc.2 →
      (results.foldl runArchiveStep acc).1.length
        = (results.foldl runArchiveStep acc).2 := by
  induction results with
  | nil => intro acc h; exact h
  | cons r rs ih => intro acc h; exact ih _ (runArchiveStep_length acc r h)

theorem runArchive_length (results : List profileReadCloser) :
    (runArchive results).1.length = (runArchive results).2 :=
  runArchive_foldl_length results ([], 0) rfl

theorem runArchive_zero_entries (results : List profileReadCloser)
    (h : (runArchive results).2 = 0) : (runArchive results).1 = [] := by
  have := runArchive_length results
  rw [h] at this
  exact List.length_eq_zero.mp this

theorem Run_none_eq (path : String) (names : List String)
    (results : List profileReadCloser) :
    Run path names none results
      = Run.runAfterOpen path [RunEvent.fetchesLaunched names] results := by
  simp only [Run]
  by_cases hp : path = ""
  · rw [if_pos hp]
  · rw [if_neg hp]

theorem runAfterOpen_zero (path : String) (launched : List RunEvent)
    (results : List profileReadCloser) (h : (runArchive results).2 = 0) :
    Run.runAfterOpen path launched results =
      { events := launched ++ [RunEvent.outputOpened path, RunEvent.archiveFinalized]
          ++ (if path = "" then [] else [RunEvent.outputFileRemoved path])
        stdout := if path = "" then archiveEncode [] else []
        fileOnDisk := none
        successN := 0
        err := some "no profiles written" } := by
  simp only [Run.runAfterOpen]
  rw [if_pos h, runArchive_zero_entries results h]

theorem runAfterOpen_pos (path : String) (launched : List RunEvent)
    (results : List profileReadCloser) (h : ¬ (runArchive results).2 = 0) :
    Run.runAfterOpen path launched results =
      { events := launched ++ [RunEvent.outputOpened path, RunEvent.archiveFinalized]
        stdout := if path = "" then archiveEncode (runArchive results).1 else []
        fileOnDisk := if path = "" then none
          else some (archiveEncode (runArchive results).1)
        successN := (runArchive results).2
        err := none } := by
  simp only [Run.runAfterOpen]
  rw [if_neg h]

theorem run_events_head (path : String) (names : List String)
    (createErr : Option String) (results : List profileReadCloser) :
    (Run path names createErr results).events.head?
      = some (RunEvent.fetchesLaunched names) := by
  have hafter : ∀ p,
      (Run.runAfterOpen p [RunEvent.fetchesLaunched names] results).events.head?
        = some (RunEvent.fetchesLaunched names) := by
    intro p
    by_cases h : (runArchive results).2 = 0
    · rw [runAfterOpen_zero _ _ _ h]; simp
    · rw [runAfterOpen_pos _ _ _ h]; simp
  simp only [Run]
  by_cases hp : path = ""
  · rw [if_pos hp]; exact hafter path
  · rw [if_neg hp]
    cases createErr with
    | some e => rfl
    | none => exact hafter path

/-! ### Claim theorems about Run, the coordinator and main -/

/-- C3, counterexample: when os.Create fails, Run returns that error — but
the fetch tasks have already been dispatched (fetchProfiles is called before
the output sink is resolved), while the output sink is never opened in that
run, so "no network activity before the sink has been opened" fails. -/
theorem run_create_failure_counterexample :
    (Run "out.tar.gz" ["heap"] (some "open out.tar.gz: permission denied") []).events
      = [RunEvent.fetchesLaunched ["heap"]]
    ∧ (Run "out.tar.gz" ["heap"] (some "open out.tar.gz: permission denied") []).err
      = some "open out.tar.gz: permission denied"
    ∧ ∀ p, RunEvent.outputOpened p
        ∉ (Run "out.tar.gz" ["heap"] (some "open out.tar.gz: permission denied") []).events := by
  refine ⟨by decide, by decide, ?_⟩
  intro p
  rw [show (Run "out.tar.gz" ["heap"] (some "open out.tar.gz: permission denied") []).events
      = [RunEvent.fetchesLaunched ["heap"]] from by decide]
  simp

/-- C3 (amended): if an output path is given and creating the output file
fails, Run aborts with exactly that error, writing nothing and leaving no
file; however, the profile fetch tasks are dispatched before the output sink
is opened — the launch is the first event of every run — so the abort does
not prevent fetch network activity. -/
theorem run_create_failure_aborts (path : String) (names : List String) (e : String)
    (results : List profileReadCloser) (hp : path ≠ "") :
    Run path names (some e) results =
      { events := [RunEvent.fetchesLaunched names], stdout := [], fileOnDisk := none,
        successN := 0, err := some e }
    ∧ (∀ (path2 : String) (createErr : Option String)
        (res2 : List profileReadCloser),
        (Run path2 names createErr res2).events.head?
          = some (RunEvent.fetchesLaunched names)) := by
  constructor
  · simp only [Run]
    rw [if_neg hp]
  · intro path2 createErr res2
    exact run_events_head path2 names createErr res2

theorem run_create_failure_aborts_witness :
    Run "out.tar.gz" ["heap"] (some "boom") [] =
      { events := [RunEvent.fetchesLaunched ["heap"]], stdout := [], fileOnDisk := none,
        successN := 0, err := some "boom" }
    ∧ (Run "" ["heap"] none []).events.head?
        = some (RunEvent.fetchesLaunched ["heap"]) := by
  have h := run_create_failure_aborts "out.tar.gz" ["heap"] "boom" [] (by decide)
  exact ⟨h.1, h.2 "" none []⟩

/-- C4: in a run whose output sink opened successfully, zero successful
entries make Run return the error "no profiles written", with no output file
left on disk (the named file, when one was created, is removed); at least one
successful entry makes Run report success (no error). -/
theorem run_outcome_spec (path : String) (names : List String)
    (results : List profileReadCloser) :
    ((runArchive results).2 = 0 →
      (Run path names none results).err = some "no profiles written"
      ∧ (Run path names none results).fileOnDisk = none
      ∧ (path ≠ "" →
          RunEvent.outputFileRemoved path ∈ (Run path names none results).events))
    ∧ ((runArchive results).2 ≠ 0 → (Run path names none results).err = none) := by
  rw [Run_none_eq]
  constructor
  · intro h
    rw [runAfterOpen_zero _ _ _ h]
    refine ⟨rfl, rfl, ?_⟩
    intro hp
    simp [hp]
  · intro h
    rw [runAfterOpen_pos _ _ _ h]

theorem run_outcome_spec_witness :
    ((Run "out.tar.gz" ["heap"] none []).err = some "no profiles written"
      ∧ (Run "out.tar.gz" ["heap"] none []).fileOnDisk = none
      ∧ RunEvent.outputFileRemoved "out.tar.gz"
          ∈ (Run "out.tar.gz" ["heap"] none []).events)
    ∧ (Run "" ["heap"] none [⟨"heap", ⟨[1], none⟩⟩]).err = none := by
  constructor
  · have h := (run_outcome_spec "out.tar.gz" ["heap"] []).1 (by decide)
    exact ⟨h.1, h.2.1, h.2.2 (by decide)⟩
  · exact (run_outcome_spec "" ["heap"] [⟨"heap", ⟨[1], none⟩⟩]).2 (by decide)

/-- C10: when zero profiles succeed and no output path was given, Run still
writes the complete finalized (empty) archive to stdout — the bytes decode
back to the empty entry list and are not empty themselves — and then returns
the error "no profiles written"; the zero-success cleanup never removes
anything in a stdout run (no file-removal event occurs). -/
theorem run_zero_success_stdout (names : List String)
    (results : List profileReadCloser) (h : (runArchive results).2 = 0) :
    (Run "" names none results).stdout = archiveEncode []
    ∧ archiveDecode ((Run "" names none results).stdout) = some []
    ∧ (Run "" names none results).stdout ≠ []
    ∧ (Run "" names none results).err = some "no profiles written"
    ∧ (∀ p, RunEvent.outputFileRemoved p ∉ (Run "" names none results).events) := by
  rw [Run_none_eq, runAfterOpen_zero _ _ _ h]
  refine ⟨by simp, ?_, by simp [archiveEncode], rfl, ?_⟩
  · simp only [if_pos rfl]
    exact archiveDecode_archiveEncode []
  · intro p
    simp

theorem run_zero_success_stdout_witness :
    (Run "" ["profile", "heap"] none []).stdout = archiveEncode []
    ∧ archiveDecode ((Run "" ["profile", "heap"] none []).stdout) = some []
    ∧ (Run "" ["profile", "heap"] none []).stdout ≠ []
    ∧ (Run "" ["profile", "heap"] none []).err = some "no profiles written" := by
  have h := run_zero_success_stdout ["profile", "heap"] [] (by decide)
  exact ⟨h.1, h.2.1, h.2.2.1, h.2.2.2.1⟩

/-- C5: the coordinator launches one task per requested profile; in every
reachable state in which the channel has been closed, all launched tasks have
completed and the emitted results are exactly the successful fetches (as a
permutation, i.e. arrival order aside); and any step that closes the channel
can only fire from a state with no pending task, so closure is the definitive
no-more-results signal. -/
theorem fetchProfiles_coordinator_spec (tasks : List (Option profileReadCloser))
    (s : CoordState) (h : CoordReachable tasks s) :
    ((initCoord tasks).pending = tasks
      ∧ ∀ specs : List (String × HTTPAnswer),
          (initCoord (coordTasks specs)).pending.length = specs.length)
    ∧ (s.closed = true → s.pending = [] ∧ s.emitted.Perm (tasks.filterMap id))
    ∧ (∀ s1 s2 : CoordState, CoordStep s1 s2 → s1.closed = false → s2.closed = true →
        s1.pending = []) := by
  refine ⟨⟨rfl, fun specs => by simp [initCoord, coordTasks]⟩, ?_, ?_⟩
  · intro hc
    have inv := coord_invariant tasks s h
    have hp := inv.2 hc
    refine ⟨hp, ?_⟩
    have hperm := inv.1
    rw [hp] at hperm
    simpa using hperm
  · intro s1 s2 hstep h1 h2
    cases hstep with
    | complete l1 l2 t e c =>
      rw [h1] at h2
      exact absurd h2 Bool.false_ne_true
    | close e => rfl

theorem fetchProfiles_coordinator_spec_witness :
    (CoordState.mk ([] : List (Option profileReadCloser))
        [⟨"heap", ⟨[1], none⟩⟩] true).pending = []
    ∧ (CoordState.mk ([] : List (Option profileReadCloser))
        [⟨"heap", ⟨[1], none⟩⟩] true).emitted.Perm
        (([some ⟨"heap", ⟨[1], none⟩⟩, none]
          : List (Option profileReadCloser)).filterMap id) := by
  have step1 : CoordStep (initCoord [some ⟨"heap", ⟨[1], none⟩⟩, none])
      (CoordState.mk [none] [⟨"heap", ⟨[1], none⟩⟩] false) :=
    CoordStep.complete [] [none] (some ⟨"heap", ⟨[1], none⟩⟩) [] false
  have step2 : CoordStep (CoordState.mk [none] [⟨"heap", ⟨[1], none⟩⟩] false)
      (CoordState.mk [] [⟨"heap", ⟨[1], none⟩⟩] false) :=
    CoordStep.complete [] [] none [⟨"heap", ⟨[1], none⟩⟩] false
  have hreach : CoordReachable [some ⟨"heap", ⟨[1], none⟩⟩, none]
      (CoordState.mk [] [⟨"heap", ⟨[1], none⟩⟩] true) :=
    Relation.ReflTransGen.tail
      (Relation.ReflTransGen.tail
        (Relation.ReflTransGen.tail Relation.ReflTransGen.refl step1) step2)
      (CoordStep.close [⟨"heap", ⟨[1], none⟩⟩])
  have h := (fetchProfiles_coordinator_spec _ _ hreach).2.1 rfl
  exact ⟨h.1, h.2⟩

/-- C9, counterexample: a missing URL argument and an undefined flag are
usage/flag-parse failures, yet the process exits with code 1, not 2: main
maps flag.ErrHelp to exit 2 and every other ParseFlags error to exit 1. -/
theorem main_usage_exit_code_counterexample :
    ParseFlags (fun _ => true) [] = ParseFlagsResult.usageError "URL required"
    ∧ (mainProcess (fun _ => true) [] false).exitCode = 1
    ∧ ParseFlags (fun _ => true) ["--badflag", "http://localhost"]
        = ParseFlagsResult.flagError (FlagParseError.notDefined "badflag")
    ∧ (mainProcess (fun _ => true) ["--badflag", "http://localhost"] false).exitCode = 1
    ∧ (1 : Nat) ≠ 2 := by
  exact ⟨by decide, by decide, by decide, by decide, by decide⟩

/-- C9 (amended): the process exits 0 when flags parse and Run succeeds, 1
when Run fails, 1 (not 2) on usage and flag-parse failures (missing or extra
URL argument, undefined flag, bad flag value) with Run never invoked — hence
no network activity — and 2 exactly when help is requested (-h or -help),
printing the usage text to the error stream, again without invoking Run. -/
theorem main_exit_codes_spec (urlOk : String → Bool) (args : List String)
    (runFails : Bool) :
    (ParseFlags urlOk args = ParseFlagsResult.help →
      mainProcess urlOk args runFails =
        { exitCode := 2, ranRun := false, printedUsage := true })
    ∧ (∀ e, ParseFlags urlOk args = ParseFlagsResult.flagError e →
      mainProcess urlOk args runFails =
        { exitCode := 1, ranRun := false, printedUsage := false })
    ∧ (∀ msg, ParseFlags urlOk args = ParseFlagsResult.usageError msg →
      mainProcess urlOk args runFails =
        { exitCode := 1, ranRun := false, printedUsage := false })
    ∧ (∀ st, ParseFlags urlOk args = ParseFlagsResult.ok st →
      mainProcess urlOk args runFails =
        (if runFails then { exitCode := 1, ranRun := true, printedUsage := false }
         else { exitCode := 0, ranRun := true, printedUsage := false })) := by
  refine ⟨?_, ?_, ?_, ?_⟩
  · intro h; simp [mainProcess, h]
  · intro e h; simp [mainProcess, h]
  · intro msg h; simp [mainProcess, h]
  · intro st h; simp [mainProcess, h]

theorem main_exit_codes_spec_witness :
    mainProcess (fun _ => true) ["-h"] false
      = { exitCode := 2, ranRun := false, printedUsage := true }
    ∧ mainProcess (fun _ => true) ["-v", "http://localhost:1000"] false
      = { exitCode := 0, ranRun := true, printedUsage := false } := by
  constructor
  · exact (main_exit_codes_spec (fun _ => true) ["-h"] false).1 (by decide)
  · have h := (main_exit_codes_spec (fun _ => true) ["-v", "http://localhost:1000"] false).2.2.2
      { outputPath := "", profileNames := DefaultProfileNames, verbose := true,
        urlArg := "http://localhost:1000" } (by decide)
    simpa using h

end Pprofdump
